import Mathlib

/-!
# Verification of the evo-islands core against its specification

Shallow embedding of the evo-islands repository (Rust) in Lean 4:

* `src/shared/src/genes.rs`   — `Genome` and its operations (exact rational
  arithmetic stands in for `f64`; all the clamping / scaling logic is ported
  verbatim).
* `src/sim/src/world.rs`      — tiles, food consumption, plant regrowth.
* `src/sim/src/creature.rs`   — creatures and `Creature::reproduce`.
* `src/sim/src/island.rs`     — the reproduction phase with its population
  cap, the monoculture stop condition, and the simulation driver loop.
* `src/server/src/gene_pool.rs` — the gene-pool registry, seed minting and
  survival-result ingestion (u32 arithmetic is modelled as `Nat` with
  explicit wrapping / saturation at `2^32`).

Randomness is modelled by an explicit stream of drawn values (`Rng`): each
call the Rust code makes to `rng.gen`, `gen_range` or `gen::<bool>` pops the
next value off the corresponding stream.  Random UUIDs are modelled by a
caller-supplied stream of `Nat` identifiers, with freshness stated as a
hypothesis where a theorem needs it.
-/

/-- Deterministic stand-in for `rand::thread_rng()`: three streams of
pre-drawn values (`ℚ` draws for `gen::<f64>()` / `gen_range`, `Bool` draws
for `gen::<bool>()`, `Nat` draws for `gen_range(0..n)`), each with a cursor.
-/
structure Rng where
  qs : Nat → ℚ
  bs : Nat → Bool
  ns : Nat → Nat
  qi : Nat
  bi : Nat
  ni : Nat

/-- Pop the next rational draw (models `rng.gen::<f64>()`, a value in `[0,1)`). -/
def Rng.nextQ (r : Rng) : ℚ × Rng :=
  (r.qs r.qi, { r with qi := r.qi + 1 })

/-- Pop the next boolean draw (models `rng.gen::<bool>()`). -/
def Rng.nextB (r : Rng) : Bool × Rng :=
  (r.bs r.bi, { r with bi := r.bi + 1 })

/-- Models `rng.gen_range(lo..hi)`: the `[0,1)` draw mapped affinely into `[lo,hi)`. -/
def Rng.range (r : Rng) (lo hi : ℚ) : ℚ × Rng :=
  let (q, r') := r.nextQ
  (lo + (hi - lo) * q, r')

/-- Models `rng.gen_range(0..n)` on integers. -/
def Rng.natLt (r : Rng) (n : Nat) : Nat × Rng :=
  (r.ns r.ni % n, { r with ni := r.ni + 1 })

/-- A fixed concrete random stream, used to instantiate theorems. -/
def rngC : Rng := ⟨fun _ => 1/2, fun _ => true, fun _ => 0, 0, 0, 0⟩

/-! ## Genome (`src/shared/src/genes.rs`) -/

/-- `const TRAIT_BUDGET: f64 = 2.5;` -/
def TRAIT_BUDGET : ℚ := 5/2

/-- The five-trait genome.  `f64` trait values are modelled as `ℚ`. -/
structure Genome where
  strength : ℚ
  speed : ℚ
  size : ℚ
  efficiency : ℚ
  reproduction : ℚ
deriving DecidableEq

/-- Rust `x.clamp(0.0, 1.0)`. -/
def clamp01 (x : ℚ) : ℚ := min 1 (max 0 x)

/-- Sum of the five traits. -/
def Genome.traitSum (g : Genome) : ℚ :=
  g.strength + g.speed + g.size + g.efficiency + g.reproduction

/-- `Genome::normalize`: clamp every trait to `[0,1]`; if the clamped sum is
positive, scale each trait by `TRAIT_BUDGET / sum` capping at `1.0`;
otherwise set every trait to `TRAIT_BUDGET / 5`. -/
def Genome.normalize (g : Genome) : Genome :=
  let s := clamp01 g.strength
  let sp := clamp01 g.speed
  let sz := clamp01 g.size
  let ef := clamp01 g.efficiency
  let rp := clamp01 g.reproduction
  let sum := s + sp + sz + ef + rp
  if 0 < sum then
    let scale := TRAIT_BUDGET / sum
    ⟨min (s * scale) 1, min (sp * scale) 1, min (sz * scale) 1,
      min (ef * scale) 1, min (rp * scale) 1⟩
  else
    let evenSplit := TRAIT_BUDGET / 5
    ⟨evenSplit, evenSplit, evenSplit, evenSplit, evenSplit⟩

/-- `Genome::new`: clamp the five given values, then normalize. -/
def Genome.new (strength speed size efficiency reproduction : ℚ) : Genome :=
  Genome.normalize
    ⟨clamp01 strength, clamp01 speed, clamp01 size,
      clamp01 efficiency, clamp01 reproduction⟩

/-- `Genome::random`: five `rng.gen()` draws, then normalize. -/
def Genome.random (r : Rng) : Genome × Rng :=
  let (a, r1) := r.nextQ
  let (b, r2) := r1.nextQ
  let (c, r3) := r2.nextQ
  let (d, r4) := r3.nextQ
  let (e, r5) := r4.nextQ
  ((Genome.mk a b c d e).normalize, r5)

/-- One trait of `Genome::mutate`: gate the mutation on `rng.gen::<f64>() <
mutation_rate`; when it fires, add `rng.gen_range(-0.1..0.1)` and clamp.
Returns the new trait value and whether the mutation fired. -/
def mutateTrait (t rate : ℚ) (r : Rng) : ℚ × Bool × Rng :=
  let (q, r1) := r.nextQ
  if q < rate then
    let (d, r2) := r1.range (-(1/10)) (1/10)
    (clamp01 (t + d), true, r2)
  else
    (t, false, r1)

/-- `Genome::mutate`: per-trait gated mutation; re-normalize only when at
least one trait actually mutated. -/
def Genome.mutate (g : Genome) (rate : ℚ) (r : Rng) : Genome × Rng :=
  let (s, f1, r1) := mutateTrait g.strength rate r
  let (sp, f2, r2) := mutateTrait g.speed rate r1
  let (sz, f3, r3) := mutateTrait g.size rate r2
  let (ef, f4, r4) := mutateTrait g.efficiency rate r3
  let (rp, f5, r5) := mutateTrait g.reproduction rate r4
  let g' : Genome := ⟨s, sp, sz, ef, rp⟩
  if f1 || f2 || f3 || f4 || f5 then (g'.normalize, r5) else (g', r5)

/-- `Genome::crossover`: each trait independently from either parent
(`rng.gen::<bool>()`), then normalize. -/
def Genome.crossover (g other : Genome) (r : Rng) : Genome × Rng :=
  let (b1, r1) := r.nextB
  let (b2, r2) := r1.nextB
  let (b3, r3) := r2.nextB
  let (b4, r4) := r3.nextB
  let (b5, r5) := r4.nextB
  let child : Genome :=
    ⟨if b1 then g.strength else other.strength,
     if b2 then g.speed else other.speed,
     if b3 then g.size else other.size,
     if b4 then g.efficiency else other.efficiency,
     if b5 then g.reproduction else other.reproduction⟩
  (child.normalize, r5)

/-- The trait-budget invariant actually maintained by `normalize`: every
trait in `[0,1]`, and the trait sum in `[1, TRAIT_BUDGET]`. -/
def Genome.Budgeted (g : Genome) : Prop :=
  (0 ≤ g.strength ∧ g.strength ≤ 1) ∧
  (0 ≤ g.speed ∧ g.speed ≤ 1) ∧
  (0 ≤ g.size ∧ g.size ≤ 1) ∧
  (0 ≤ g.efficiency ∧ g.efficiency ≤ 1) ∧
  (0 ≤ g.reproduction ∧ g.reproduction ≤ 1) ∧
  1 ≤ g.traitSum ∧ g.traitSum ≤ TRAIT_BUDGET

theorem clamp01_nonneg (x : ℚ) : 0 ≤ clamp01 x := by
  simp [clamp01]

theorem clamp01_le_one (x : ℚ) : clamp01 x ≤ 1 := by
  simp [clamp01]

theorem Genome.normalize_budgeted (g : Genome) : (g.normalize).Budgeted := by
  unfold Genome.normalize
  set s := clamp01 g.strength with hs
  set sp := clamp01 g.speed with hsp
  set sz := clamp01 g.size with hsz
  set ef := clamp01 g.efficiency with hef
  set rp := clamp01 g.reproduction with hrp
  have h0s : 0 ≤ s := clamp01_nonneg _
  have h0sp : 0 ≤ sp := clamp01_nonneg _
  have h0sz : 0 ≤ sz := clamp01_nonneg _
  have h0ef : 0 ≤ ef := clamp01_nonneg _
  have h0rp : 0 ≤ rp := clamp01_nonneg _
  by_cases hpos : 0 < s + sp + sz + ef + rp
  · simp only [hpos, if_pos]
    set c : ℚ := TRAIT_BUDGET / (s + sp + sz + ef + rp) with hc
    have hcpos : 0 < c := by
      apply div_pos _ hpos
      norm_num [TRAIT_BUDGET]
    have hb : ∀ v : ℚ, 0 ≤ v → (0 ≤ min (v * c) 1 ∧ min (v * c) 1 ≤ 1) := by
      intro v hv
      constructor
      · exact le_min (mul_nonneg hv hcpos.le) one_pos.le
      · exact min_le_right _ _
    have hsum_le : min (s * c) 1 + min (sp * c) 1 + min (sz * c) 1 +
        min (ef * c) 1 + min (rp * c) 1 ≤ TRAIT_BUDGET := by
      have heq : s * c + sp * c + sz * c + ef * c + rp * c = TRAIT_BUDGET := by
        rw [hc]
        field_simp
        ring
      linarith [min_le_left (s * c) (1:ℚ), min_le_left (sp * c) (1:ℚ),
        min_le_left (sz * c) (1:ℚ), min_le_left (ef * c) (1:ℚ),
        min_le_left (rp * c) (1:ℚ)]
    have hsum_ge : 1 ≤ min (s * c) 1 + min (sp * c) 1 + min (sz * c) 1 +
        min (ef * c) 1 + min (rp * c) 1 := by
      by_cases hall : s * c ≤ 1 ∧ sp * c ≤ 1 ∧ sz * c ≤ 1 ∧ ef * c ≤ 1 ∧ rp * c ≤ 1
      · obtain ⟨h1, h2, h3, h4, h5⟩ := hall
        rw [min_eq_left h1, min_eq_left h2, min_eq_left h3, min_eq_left h4,
          min_eq_left h5]
        have : s * c + sp * c + sz * c + ef * c + rp * c = TRAIT_BUDGET := by
          rw [hc]
          field_simp
          ring
        rw [this]
        norm_num [TRAIT_BUDGET]
      · push_neg at hall
        have hone : (1:ℚ) ≤ min (s * c) 1 + min (sp * c) 1 + min (sz * c) 1 +
            min (ef * c) 1 + min (rp * c) 1 := by
          have n1 := (hb s h0s).1
          have n2 := (hb sp h0sp).1
          have n3 := (hb sz h0sz).1
          have n4 := (hb ef h0ef).1
          have n5 := (hb rp h0rp).1
          by_cases c1 : s * c ≤ 1
          · by_cases c2 : sp * c ≤ 1
            · by_cases c3 : sz * c ≤ 1
              · by_cases c4 : ef * c ≤ 1
                · have c5 := hall c1 c2 c3 c4
                  have : min (rp * c) 1 = 1 := min_eq_right c5.le
                  linarith [this]
                · have : min (ef * c) 1 = 1 := min_eq_right (le_of_not_le c4)
                  linarith [this]
              · have : min (sz * c) 1 = 1 := min_eq_right (le_of_not_le c3)
                linarith [this]
            · have : min (sp * c) 1 = 1 := min_eq_right (le_of_not_le c2)
              linarith [this]
          · have : min (s * c) 1 = 1 := min_eq_right (le_of_not_le c1)
            linarith [this]
        exact hone
    refine ⟨hb s h0s, hb sp h0sp, hb sz h0sz, hb ef h0ef, hb rp h0rp, ?_, ?_⟩
    · simpa [Genome.traitSum] using hsum_ge
    · simpa [Genome.traitSum] using hsum_le
  · simp only [hpos, if_neg, if_false]
    refine ⟨?_, ?_, ?_, ?_, ?_, ?_, ?_⟩ <;>
      norm_num [Genome.traitSum, TRAIT_BUDGET]

/-! ## World grid (`src/sim/src/world.rs`) -/

/-- Tile kinds (`enum Tile`): `u32` food counts are modelled as `Nat`. -/
inductive Tile where
  | empty : Tile
  | plant (current_food max_food regrowth_timer : Nat) : Tile
  | food (amount : Nat) : Tile
deriving DecidableEq

/-- The 2D grid world.  The `Vec<Vec<Tile>>` grid is modelled as a total
function; only in-bounds cells are ever observable through `get_tile`. -/
structure World where
  width : Nat
  height : Nat
  grid : Nat → Nat → Tile

/-- `World::new`: the all-empty grid. -/
def World.new (width height : Nat) : World :=
  ⟨width, height, fun _ _ => Tile.empty⟩

/-- Write one tile (`self.grid[y][x] = t`). -/
def World.setTile (w : World) (x y : Nat) (t : Tile) : World :=
  { w with grid := fun y' x' => if y' = y ∧ x' = x then t else w.grid y' x' }

/-- `World::get_tile`: `None` out of bounds. -/
def World.get_tile (w : World) (x y : Nat) : Option Tile :=
  if x < w.width ∧ y < w.height then some (w.grid y x) else none

/-- `World::get_available_food`. -/
def World.get_available_food (w : World) (x y : Nat) : Nat :=
  match w.get_tile x y with
  | some (Tile.plant cf _ _) => cf
  | some (Tile.food a) => a
  | _ => 0

/-- `World::consume_food`: returns the amount actually consumed together
with the updated world. -/
def World.consume_food (w : World) (x y amount_requested : Nat) : Nat × World :=
  match w.get_tile x y with
  | some (Tile.plant cf mf t) =>
    let consumed := min cf amount_requested
    let cf' := cf - consumed
    let t' := if cf' = 0 then 10 else t
    (consumed, w.setTile x y (Tile.plant cf' mf t'))
  | some (Tile.food a) =>
    let consumed := min a amount_requested
    let a' := a - consumed
    (consumed, w.setTile x y (if a' = 0 then Tile.empty else Tile.food a'))
  | _ => (0, w)

/-- The per-tile body of `World::tick_plants`. -/
def tickPlantTile : Tile → Tile
  | Tile.plant cf mf t =>
    if cf < mf then
      if 0 < t then
        let t' := t - 1
        if t' = 0 then
          let cf' := cf + 1
          Tile.plant cf' mf (if cf' < mf then 10 else t')
        else
          Tile.plant cf mf t'
      else
        let cf' := cf + 1
        Tile.plant cf' mf (if cf' < mf then 10 else t)
    else
      Tile.plant cf mf t
  | t => t

/-- `World::tick_plants`: apply the regrowth rule to every in-bounds tile. -/
def World.tick_plants (w : World) : World :=
  { w with
    grid := fun y x =>
      if y < w.height ∧ x < w.width then tickPlantTile (w.grid y x)
      else w.grid y x }

/-! ## Creature (`src/sim/src/creature.rs`)

`energy` and `health` are `f64` in Rust, modelled as `ℚ`.  The per-creature
`id: Uuid` field is never read by the simulation and is omitted. -/

structure Creature where
  genome : Genome
  genome_id : Nat
  energy : ℚ
  health : ℚ
  x : Nat
  y : Nat
  food_eaten : Nat
deriving DecidableEq

/-- `Creature::new`: starting energy 100, health 100, no food eaten. -/
def Creature.new (genome : Genome) (genome_id : Nat) (x y : Nat) : Creature :=
  ⟨genome, genome_id, 100, 100, x, y, 0⟩

/-- `Creature::is_dead`. -/
def Creature.is_dead (c : Creature) : Prop := c.health ≤ 0

/-- `Creature::can_reproduce`: `energy >= threshold`. -/
def Creature.can_reproduce (c : Creature) (threshold : ℚ) : Prop :=
  threshold ≤ c.energy

instance (c : Creature) (t : ℚ) : Decidable (c.can_reproduce t) := by
  unfold Creature.can_reproduce
  infer_instance

/-- `Creature::reproduce`: guarded by the hard-coded threshold `60.0` on
both partners; on success each partner pays 20 energy and the child is a
mutated crossover placed at the integer midpoint, carrying `self`'s
lineage id.  Returns (child?, updated self, updated other, rng). -/
def Creature.reproduce (self other : Creature) (mutation_rate : ℚ) (r : Rng) :
    Option Creature × Creature × Creature × Rng :=
  if self.can_reproduce 60 ∧ other.can_reproduce 60 then
    let self' := { self with energy := self.energy - 20 }
    let other' := { other with energy := other.energy - 20 }
    let (cg, r1) := self.genome.crossover other.genome r
    let (child_genome, r2) := cg.mutate mutation_rate r1
    let child := Creature.new child_genome self.genome_id
      ((self.x + other.x) / 2) ((self.y + other.y) / 2)
    (some child, self', other', r2)
  else
    (none, self, other, r)

/-! ## Association-list model of `HashMap` state

`HashMap<Uuid, V>` state is modelled as an association list over `Nat`
keys with the usual unique-key insert/update semantics: `insertAL`
replaces the first binding of the key or appends a new one, `updateAL`
modifies the first binding if present, `findAL` returns the first
binding. -/

def findAL {β : Type} (k : Nat) : List (Nat × β) → Option β
  | [] => none
  | (k', v) :: rest => if k' = k then some v else findAL k rest

def insertAL {β : Type} (k : Nat) (v : β) : List (Nat × β) → List (Nat × β)
  | [] => [(k, v)]
  | (k', v') :: rest =>
    if k' = k then (k, v) :: rest else (k', v') :: insertAL k v rest

def updateAL {β : Type} (k : Nat) (f : β → β) : List (Nat × β) → List (Nat × β)
  | [] => []
  | (k', v') :: rest =>
    if k' = k then (k', f v') :: rest else (k', v') :: updateAL k f rest

theorem findAL_insertAL {β : Type} (k j : Nat) (v : β) (l : List (Nat × β)) :
    findAL j (insertAL k v l) = if k = j then some v else findAL j l := by
  induction l with
  | nil => by_cases h : k = j <;> simp [insertAL, findAL, h]
  | cons hd tl ih =>
    obtain ⟨k', v'⟩ := hd
    by_cases hk : k' = k
    · subst hk
      by_cases hj : k' = j <;> simp [insertAL, findAL, hj]
    · by_cases hj : k' = j
      · subst hj
        have : ¬ k = k' := fun h => hk h.symm
        simp [insertAL, findAL, hk, this]
      · simp [insertAL, findAL, hk, hj, ih]

theorem findAL_updateAL {β : Type} (k j : Nat) (f : β → β) (l : List (Nat × β)) :
    findAL j (updateAL k f l) =
      if k = j then (findAL j l).map f else findAL j l := by
  induction l with
  | nil => by_cases h : k = j <;> simp [updateAL, findAL, h]
  | cons hd tl ih =>
    obtain ⟨k', v'⟩ := hd
    by_cases hk : k' = k
    · subst hk
      by_cases hj : k' = j <;> simp [updateAL, findAL, hj]
    · by_cases hj : k' = j
      · subst hj
        have : ¬ k = k' := fun h => hk h.symm
        simp [updateAL, findAL, hk, this]
      · simp [updateAL, findAL, hk, hj, ih]

/-! ## Island (`src/sim/src/island.rs`) -/

/-- `IslandConfig`. -/
structure IslandConfig where
  world_width : Nat
  world_height : Nat
  max_steps : Nat
  mutation_rate : ℚ
  plant_density : ℚ
  food_density : ℚ
  reproduction_threshold : ℚ

/-- Per-lineage statistics (`struct GenomeLineage`). -/
structure GenomeLineage where
  total_spawned : Nat
  total_food_eaten : Nat
deriving DecidableEq

/-- Per-run survival statistics (`struct SurvivalStats`). -/
structure SurvivalStats where
  genome_id : Nat
  survived : Nat
  total_spawned : Nat
  total_food_eaten : Nat
deriving DecidableEq

/-- `struct Island`. -/
structure Island where
  config : IslandConfig
  world : World
  creatures : List Creature
  step : Nat
  genome_stats : List (Nat × GenomeLineage)

/-- The population cap of `Island::reproduce`:
`world_area / 2` with `usize` (floor) division. -/
def IslandConfig.population_limit (cfg : IslandConfig) : Nat :=
  cfg.world_width * cfg.world_height / 2

/-- Floor of a non-negative rational, as Rust `as usize` on a product of
non-negative `f64`s. -/
def ratFloor (q : ℚ) : Nat := ⌊q⌋.toNat

/-- Plant-placement loop of `World::initialize_resources`: sample a
position; write a fresh plant only if the tile is empty. -/
def placePlants : Nat → World → Rng → World × Rng
  | 0, w, r => (w, r)
  | n + 1, w, r =>
    let (x, r1) := r.natLt w.width
    let (y, r2) := r1.natLt w.height
    let w' := if w.grid y x = Tile.empty
      then w.setTile x y (Tile.plant 10 10 0) else w
    placePlants n w' r2

/-- Food-placement loop of `World::initialize_resources`: amount drawn
uniformly from `5..=15`. -/
def placeFoods : Nat → World → Rng → World × Rng
  | 0, w, r => (w, r)
  | n + 1, w, r =>
    let (x, r1) := r.natLt w.width
    let (y, r2) := r1.natLt w.height
    let (a, r3) := r2.natLt 11
    let amt' := 5 + a
    let w' := if w.grid y x = Tile.empty
      then w.setTile x y (Tile.food amt') else w
    placeFoods n w' r3

/-- `World::initialize_resources`: `⌊w·h·density⌋` placement attempts each
for plants and food. -/
def worldWithResources (w : World) (plant_density food_density : ℚ) (r : Rng) :
    World × Rng :=
  let total : ℚ := (w.width * w.height : Nat)
  let (w1, r1) := placePlants (ratFloor (total * plant_density)) w r
  placeFoods (ratFloor (total * food_density)) w1 r1

/-- Seed-creature loop of `Island::new`: one creature per seed at a random
position, and a `genome_stats` insert (`HashMap::insert`, so a duplicate
seed id overwrites its previous entry). -/
def seedCreatures (cfg : IslandConfig) :
    List (Nat × Genome) → Rng → List Creature × List (Nat × GenomeLineage) × Rng
  | [], r => ([], [], r)
  | (genome_id, genome) :: rest, r =>
    let (x, r1) := r.natLt cfg.world_width
    let (y, r2) := r1.natLt cfg.world_height
    let (cs, stats, r3) := seedCreatures cfg rest r2
    (Creature.new genome genome_id x y :: cs,
      insertAL genome_id ⟨1, 0⟩ stats, r3)

/-- `Island::new`. -/
def Island.new (cfg : IslandConfig) (seed_genomes : List (Nat × Genome))
    (r : Rng) : Island × Rng :=
  let w0 := World.new cfg.world_width cfg.world_height
  let (w1, r1) := worldWithResources w0 cfg.plant_density cfg.food_density r
  let (cs, stats, r2) := seedCreatures cfg seed_genomes r1
  (⟨cfg, w1, cs, 0, stats⟩, r2)

/-- `Island::should_stop`: at most one distinct lineage id among the
living creatures (`HashSet` cardinality). -/
def Island.should_stop (isl : Island) : Prop :=
  ((isl.creatures.map Creature.genome_id).dedup).length ≤ 1

instance (isl : Island) : Decidable isl.should_stop := by
  unfold Island.should_stop
  infer_instance

/-- `Island::find_weakest_creature`'s scan, carrying the running
`(weakest index, lowest health)`. -/
def fwAux : List Creature → Nat → Option (Nat × ℚ) → Option (Nat × ℚ)
  | [], _, acc => acc
  | c :: rest, i, acc =>
    let acc' :=
      if c.energy ≤ 0 then
        match acc with
        | none => some (i, c.health)
        | some (wi, lh) => if c.health < lh then some (i, c.health) else some (wi, lh)
      else acc
    fwAux rest (i + 1) acc'

/-- `Island::find_weakest_creature`: the first creature with `energy ≤ 0`
of minimal health, if any. -/
def find_weakest_creature (cs : List Creature) : Option Nat :=
  (fwAux cs 0 none).map Prod.fst

/-- Group the shuffled index list into consecutive mating pairs
(`for i in (0..len-1).step_by(2)`; the odd tail is skipped). -/
def pairUp : List Nat → List (Nat × Nat)
  | i1 :: i2 :: rest => (i1, i2) :: pairUp rest
  | _ => []

/-- `stats.total_food_eaten += food` for one lineage (no-op when the
lineage is untracked, like the code's `if let Some(stats) = get_mut`). -/
def creditFood (stats : List (Nat × GenomeLineage)) (id food : Nat) :
    List (Nat × GenomeLineage) :=
  updateAL id (fun l => { l with total_food_eaten := l.total_food_eaten + food }) stats

/-- `stats.total_spawned += 1` for one lineage (no-op when untracked). -/
def incSpawn (stats : List (Nat × GenomeLineage)) (id : Nat) :
    List (Nat × GenomeLineage) :=
  updateAL id (fun l => { l with total_spawned := l.total_spawned + 1 }) stats

/-- The mating-pair loop of `Island::reproduce`.  State: the live creature
vector, the pending `new_creatures`, the lineage statistics and the rng.
`none` models a Rust panic (an index out of bounds after an eviction
shifted the vector, or `split_at_mut` on equal indices); the Rust code
does not guard against either. -/
def repLoop (cfg : IslandConfig) (limit : Nat) :
    List (Nat × Nat) → List Creature → List Creature →
    List (Nat × GenomeLineage) → Rng →
    Option (List Creature × List Creature × List (Nat × GenomeLineage) × Rng)
  | [], cs, newCs, stats, r => some (cs, newCs, stats, r)
  | (i1, i2) :: rest, cs, newCs, stats, r =>
    match cs.get? i1, cs.get? i2 with
    | some c1, some c2 =>
      if c1.can_reproduce cfg.reproduction_threshold ∧
          c2.can_reproduce cfg.reproduction_threshold then
        if i1 = i2 then none
        else
          match Creature.reproduce c1 c2 cfg.mutation_rate r with
          | (some child, c1', c2', r') =>
            let cs' := (cs.set i1 c1').set i2 c2'
            if limit ≤ cs'.length + newCs.length then
              match find_weakest_creature cs' with
              | some ridx =>
                match cs'.get? ridx with
                | some removed =>
                  let stats1 := creditFood stats removed.genome_id removed.food_eaten
                  let cs'' := cs'.eraseIdx ridx
                  let stats2 := incSpawn stats1 child.genome_id
                  repLoop cfg limit rest cs'' (newCs ++ [child]) stats2 r'
                | none => none
              | none =>
                -- no creature with zero energy: child not born, but the
                -- parents' reproduction cost stands
                repLoop cfg limit rest cs' newCs stats r'
            else
              let stats' := incSpawn stats child.genome_id
              repLoop cfg limit rest cs' (newCs ++ [child]) stats' r'
          | (none, c1', c2', r') =>
            repLoop cfg limit rest ((cs.set i1 c1').set i2 c2') newCs stats r'
      else
        repLoop cfg limit rest cs newCs stats r
    | _, _ => none

/-- `Island::reproduce`: early return below two creatures; otherwise run
the pair loop over the shuffled indices and append the newborn creatures.
The shuffled index order is a parameter (it is produced by
`indices.shuffle(rng)` in the code). -/
def Island.reproduce (isl : Island) (indices : List Nat) (r : Rng) :
    Option (Island × Rng) :=
  if isl.creatures.length < 2 then some (isl, r)
  else
    match repLoop isl.config isl.config.population_limit (pairUp indices)
        isl.creatures [] isl.genome_stats r with
    | none => none
    | some (cs, newCs, stats, r') =>
      some ({ isl with creatures := cs ++ newCs, genome_stats := stats }, r')

/-- `Island::collect_survival_stats`. -/
def Island.collect_survival_stats (isl : Island) : List SurvivalStats :=
  isl.genome_stats.map fun p =>
    ⟨p.1, (isl.creatures.filter (fun c => c.genome_id = p.1)).length,
      p.2.total_spawned, p.2.total_food_eaten⟩

/-- The `while self.step < max_steps && !self.should_stop()` loop of
`Island::run_simulation`, with the tick body abstracted as a parameter
(the tick pipeline itself is not needed by any claim about the loop) and
an explicit fuel.  A tick that increments `step` by one — as
`Island::tick` does — makes `max_steps` fuel sufficient. -/
def runSimAux (tickF : Island → Rng → Island × Rng) :
    Nat → Island → Rng → Island × Rng
  | 0, isl, r => (isl, r)
  | fuel + 1, isl, r =>
    if isl.step < isl.config.max_steps ∧ ¬ isl.should_stop then
      let (isl', r') := tickF isl r
      runSimAux tickF fuel isl' r'
    else (isl, r)

/-- `Island::run_simulation` (loop and stop condition; the per-tick body is
the parameter `tickF`). -/
def Island.run_simulation (tickF : Island → Rng → Island × Rng)
    (isl : Island) (r : Rng) : Island × Rng :=
  runSimAux tickF isl.config.max_steps isl r

/-- A concrete tick body that only advances the step counter; used to
instantiate loop theorems at a closed input. -/
def incTick : Island → Rng → Island × Rng :=
  fun isl r => ({ isl with step := isl.step + 1 }, r)

/-! ## Gene pool (`src/server/src/gene_pool.rs`) -/

/-- `struct GenomeEntry`: a genome and its virtual population (`u32`). -/
structure GenomeEntry where
  genome : Genome
  population : Nat
deriving DecidableEq

/-- Wire struct `SurvivalResult` (`shared/src/protocol.rs`); `avg_lifespan`
is an `f64` the server never reads. -/
structure SurvivalResult where
  genome_id : Nat
  survived : Nat
  total_spawned : Nat
  avg_lifespan : ℚ
  total_food_eaten : Nat

/-- `struct GenePoolInner` (lock and start time omitted; the model is the
single-threaded semantics of one serialized call). -/
structure GenePoolInner where
  genomes : List (Nat × GenomeEntry)
  active_clients : List Nat
  total_work_units : Nat
  total_simulations : Nat

def u32Max : Nat := 4294967295

/-- `u32::saturating_add`. -/
def satAdd32 (a b : Nat) : Nat := min (a + b) u32Max

/-- The `result.survived * 10` increment: an unchecked `u32`
multiplication, so it wraps modulo `2^32`. -/
def survivedTimesTen (survived : Nat) : Nat := survived * 10 % 4294967296

/-- One survival result applied to the registry
(`if survived > 0 { saturating_add(survived*10) } else { saturating_sub(20) }`;
unknown ids are logged and skipped). -/
def applyResult (genomes : List (Nat × GenomeEntry)) (res : SurvivalResult) :
    List (Nat × GenomeEntry) :=
  match findAL res.genome_id genomes with
  | some _ =>
    if 0 < res.survived then
      updateAL res.genome_id
        (fun e => { e with population := satAdd32 e.population (survivedTimesTen res.survived) })
        genomes
    else
      updateAL res.genome_id
        (fun e => { e with population := e.population - 20 }) genomes
  | none => genomes

/-- The final pass of `submit_survival_results`:
`if entry.population > 10000 { entry.population = 10000 }`. -/
def clampPops (genomes : List (Nat × GenomeEntry)) : List (Nat × GenomeEntry) :=
  genomes.map fun p => (p.1, { p.2 with population := min p.2.population 10000 })

/-- `GenePool::submit_survival_results`.  The reported `best_genomes` are
ingested at population 50 under fresh v4 ids; the `(id, genome)` pairing
is passed in explicitly (`best` models `best_genomes` zipped with the ids
`Uuid::new_v4()` returns for them). -/
def submit_survival_results (inner : GenePoolInner) (client_id : Nat)
    (survival_results : List SurvivalResult) (steps_completed : Nat)
    (best : List (Nat × Genome)) : GenePoolInner :=
  let genomes1 := survival_results.foldl applyResult inner.genomes
  let genomes2 := best.foldl
    (fun gs p => insertAL p.1 ⟨p.2, 50⟩ gs) genomes1
  { genomes := clampPops genomes2
    active_clients :=
      if client_id ∈ inner.active_clients then inner.active_clients
      else client_id :: inner.active_clients
    total_work_units := inner.total_work_units + 1
    total_simulations := inner.total_simulations + steps_completed }

/-- Descending insertion sort by population
(`living.sort_by(|a,b| b.population.cmp(&a.population))`). -/
def insertByPop (e : GenomeEntry) : List GenomeEntry → List GenomeEntry
  | [] => [e]
  | e' :: rest =>
    if e'.population < e.population then e :: e' :: rest
    else e' :: insertByPop e rest

def sortByPopDesc : List GenomeEntry → List GenomeEntry
  | [] => []
  | e :: rest => insertByPop e (sortByPopDesc rest)

/-- The `while base.len() < 10 { base.push(Genome::random()) }` padding
loop (fuel 10 suffices: each round grows the list). -/
def padBase : Nat → List Genome → Rng → List Genome × Rng
  | 0, base, r => (base, r)
  | n + 1, base, r =>
    if base.length < 10 then
      padBase n (base ++ [(Genome.random r).1]) (Genome.random r).2
    else (base, r)

/-- The server-side mutation rate (`const SERVER_MUT_RATE: f64 = 0.05`). -/
def SERVER_MUT_RATE : ℚ := 1/20

/-- The minting loop of `get_seed_genomes_spatial`: mutate each base
genome at the server rate and pair it with a fresh id drawn from the
supplied id stream (modelling `Uuid::new_v4()`). -/
def mintSeeds : List Genome → List Nat → Rng → List (Nat × Genome) × Rng
  | [], _, r => ([], r)
  | _ :: _, [], r => ([], r)
  | g :: gs, id :: ids, r =>
    ((id, (g.mutate SERVER_MUT_RATE r).1) ::
        (mintSeeds gs ids (g.mutate SERVER_MUT_RATE r).2).1,
      (mintSeeds gs ids (g.mutate SERVER_MUT_RATE r).2).2)

/-- The base selection of `get_seed_genomes_spatial`: the top 5 living
entries by population, followed by the (up to) 5 sampled extinct entries
(`extinctChoice` models the random sample `extinct.choose_multiple(rng, 5)`
returns, a subset of the extinct entries). -/
def seedBase (inner : GenePoolInner) (extinctChoice : List GenomeEntry) :
    List Genome :=
  let living := (inner.genomes.map Prod.snd).filter fun e => 0 < e.population
  ((sortByPopDesc living).take 5).map GenomeEntry.genome ++
    (extinctChoice.take 5).map GenomeEntry.genome

/-- `GenePool::get_seed_genomes_spatial`: build the base selection, pad
with random genomes to 10 and truncate to 10, mutate each base genome at
the server rate under a fresh id (`freshIds` models the stream of
`Uuid::new_v4()` draws), insert the minted lineages into the registry with
population 0, and return them. -/
def get_seed_genomes_spatial (inner : GenePoolInner) (freshIds : List Nat)
    (extinctChoice : List GenomeEntry) (r : Rng) :
    List (Nat × Genome) × GenePoolInner :=
  let (base2, r1) := padBase 10 (seedBase inner extinctChoice) r
  let (out, _) := mintSeeds (base2.take 10) freshIds r1
  let genomes' := out.foldl (fun gs p => insertAL p.1 ⟨p.2, 0⟩ gs) inner.genomes
  (out, { inner with genomes := genomes' })

/-! ## Shared concrete inputs for witnesses -/

/-- The all-`0.5` genome (the `Default` genome of the code). -/
def gHalf : Genome := ⟨1/2, 1/2, 1/2, 1/2, 1/2⟩

theorem gHalf_budgeted : gHalf.Budgeted := by
  norm_num [gHalf, Genome.Budgeted, Genome.traitSum, TRAIT_BUDGET]

/-! ## Genome theorems (C1, C10) -/

theorem mutateTrait_gate_false {t rate : ℚ} {r : Rng}
    (h : ¬ r.qs r.qi < rate) :
    mutateTrait t rate r = (t, false, { r with qi := r.qi + 1 }) := by
  unfold mutateTrait Rng.nextQ
  simp [h]

theorem mutateTrait_snd_false {t rate : ℚ} {r : Rng} {v : ℚ} {r' : Rng}
    (h : mutateTrait t rate r = (v, false, r')) : v = t := by
  unfold mutateTrait Rng.nextQ Rng.range at h
  simp only [] at h
  by_cases hq : r.qs r.qi < rate
  · rw [if_pos hq] at h
    simp at h
  · rw [if_neg hq] at h
    simp at h
    exact h.1.symm

theorem Genome.mutate_budgeted (g : Genome) (rate : ℚ) (r : Rng)
    (hg : g.Budgeted) : (g.mutate rate r).1.Budgeted := by
  obtain ⟨a, b, c, d, e⟩ := g
  rcases h1 : mutateTrait a rate r with ⟨v1, f1, r1⟩
  rcases h2 : mutateTrait b rate r1 with ⟨v2, f2, r2⟩
  rcases h3 : mutateTrait c rate r2 with ⟨v3, f3, r3⟩
  rcases h4 : mutateTrait d rate r3 with ⟨v4, f4, r4⟩
  rcases h5 : mutateTrait e rate r4 with ⟨v5, f5, r5⟩
  unfold Genome.mutate
  simp only [h1, h2, h3, h4, h5]
  cases hf : (f1 || f2 || f3 || f4 || f5) with
  | true =>
    simp only [hf, if_true]
    exact Genome.normalize_budgeted _
  | false =>
    simp only [hf, Bool.false_eq_true, if_false]
    simp only [Bool.or_eq_false_iff] at hf
    obtain ⟨⟨⟨⟨e1, e2⟩, e3⟩, e4⟩, e5⟩ := hf
    subst e1 e2 e3 e4 e5
    rw [mutateTrait_snd_false h1, mutateTrait_snd_false h2,
      mutateTrait_snd_false h3, mutateTrait_snd_false h4,
      mutateTrait_snd_false h5]
    exact hg

/-- C1 (amended): every genome produced by `Genome::new`, `Genome::random`
or `Genome::crossover` — and by `Genome::mutate` from a genome already
satisfying the invariant — has all five traits in `[0,1]` and trait sum in
`[1, 2.5]` (exact arithmetic; the spec's `ε` covers only float rounding);
and when the clamped inputs are all zero, `Genome::new` sets every trait
to `2.5/5 = 0.5`, so the sum is exactly `2.5`. -/
theorem c1_trait_budget :
    (∀ a b c d e : ℚ, (Genome.new a b c d e).Budgeted) ∧
    (∀ r : Rng, (Genome.random r).1.Budgeted) ∧
    (∀ (g o : Genome) (r : Rng), (g.crossover o r).1.Budgeted) ∧
    (∀ (g : Genome) (rate : ℚ) (r : Rng), g.Budgeted →
      (g.mutate rate r).1.Budgeted) ∧
    (∀ a b c d e : ℚ, clamp01 a = 0 → clamp01 b = 0 → clamp01 c = 0 →
      clamp01 d = 0 → clamp01 e = 0 →
      Genome.new a b c d e = ⟨1/2, 1/2, 1/2, 1/2, 1/2⟩) := by
  refine ⟨?_, ?_, ?_, ?_, ?_⟩
  · intro a b c d e
    exact Genome.normalize_budgeted _
  · intro r
    simp only [Genome.random, Rng.nextQ]
    exact Genome.normalize_budgeted _
  · intro g o r
    simp only [Genome.crossover, Rng.nextB]
    exact Genome.normalize_budgeted _
  · exact Genome.mutate_budgeted
  · intro a b c d e ha hb hc hd he
    have h0 : clamp01 (0:ℚ) = 0 := by norm_num [clamp01]
    simp [Genome.new, Genome.normalize, ha, hb, hc, hd, he, h0, TRAIT_BUDGET]
    norm_num

theorem c1_trait_budget_witness :
    (Genome.mutate gHalf (1/20) rngC).1.Budgeted ∧
    Genome.new 0 0 0 0 0 = ⟨1/2, 1/2, 1/2, 1/2, 1/2⟩ :=
  ⟨c1_trait_budget.2.2.2.1 gHalf (1/20) rngC gHalf_budgeted,
   c1_trait_budget.2.2.2.2 0 0 0 0 0 (by norm_num [clamp01])
     (by norm_num [clamp01]) (by norm_num [clamp01]) (by norm_num [clamp01])
     (by norm_num [clamp01])⟩

/-- C1 (counterexample): `Genome::new(0.1, 0, 0, 0, 0)` yields the trait
vector `(1, 0, 0, 0, 0)` with sum `1 < 0.8 · 2.5 = 2`, refuting the
claimed lower bound on the trait sum. -/
theorem c1_counterexample :
    (Genome.new (1/10) 0 0 0 0).traitSum = 1 ∧
    ¬ (4/5 * TRAIT_BUDGET ≤ (Genome.new (1/10) 0 0 0 0).traitSum) := by
  constructor
  · norm_num [Genome.new, Genome.normalize, Genome.traitSum, clamp01,
      TRAIT_BUDGET]
  · norm_num [Genome.new, Genome.normalize, Genome.traitSum, clamp01,
      TRAIT_BUDGET]

/-- C10: with `mutation_rate = 0.0` no per-trait mutation can fire (every
`rng.gen::<f64>()` draw is non-negative, and the gate is a strict `<`), so
re-normalization is skipped and `Genome::mutate` returns the genome
exactly unchanged. -/
theorem c10_mutate_rate_zero (g : Genome) (r : Rng)
    (h : ∀ i, 0 ≤ r.qs i) : (g.mutate 0 r).1 = g := by
  obtain ⟨a, b, c, d, e⟩ := g
  have key : ∀ (t : ℚ) (rr : Rng), rr.qs = r.qs →
      mutateTrait t 0 rr = (t, false, { rr with qi := rr.qi + 1 }) := by
    intro t rr hqs
    apply mutateTrait_gate_false
    rw [hqs]
    exact not_lt.2 (h _)
  unfold Genome.mutate
  simp only [key]
  simp

theorem c10_mutate_rate_zero_witness : (Genome.mutate gHalf 0 rngC).1 = gHalf :=
  c10_mutate_rate_zero gHalf rngC (by intro i; norm_num [rngC])

/-! ## World theorems (C7, C8) -/

/-- A 1×1 world holding a single full plant with `max_food = 10`. -/
def plantWorld : World := ⟨1, 1, fun _ _ => Tile.plant 10 10 0⟩

/-- The scenario start: the plant fully depleted at t = 0 (consuming the
last unit sets the regrowth timer to 10). -/
def depletedWorld : World := (plantWorld.consume_food 0 0 10).2

set_option maxRecDepth 16000 in
/-- C7: `tick_plants` acts on every in-bounds plant with
`current_food < max_food` exactly as specified (count down a positive
timer, regrow one unit when it hits zero and re-arm to 10 while below max;
regrow immediately when the timer is already zero), and consequently the
single fully-depleted plant with `max_food = 10` holds `current_food = 10`
after 105 unconsumed ticks. -/
theorem c7_tick_plants :
    (∀ (w : World) (x y cf mf t : Nat), x < w.width → y < w.height →
      w.grid y x = Tile.plant cf mf t → cf < mf →
      (w.tick_plants).grid y x =
        if 0 < t then
          if t - 1 = 0 then
            Tile.plant (cf + 1) mf (if cf + 1 < mf then 10 else 0)
          else Tile.plant cf mf (t - 1)
        else Tile.plant (cf + 1) mf (if cf + 1 < mf then 10 else t)) ∧
    World.get_available_food (World.tick_plants^[105] depletedWorld) 0 0 = 10 := by
  constructor
  · intro w x y cf mf t hx hy hg hcf
    simp only [World.tick_plants, hy, hx, and_self, if_true, hg]
    simp only [tickPlantTile, if_pos hcf]
    by_cases h0 : 0 < t
    · by_cases h1 : t - 1 = 0
      · simp [h0, h1]
      · simp [h0, h1]
    · simp [h0]
  · decide

theorem c7_tick_plants_witness :
    (World.tick_plants ⟨1, 1, fun _ _ => Tile.plant 3 10 7⟩).grid 0 0 =
      Tile.plant 3 10 6 := by
  have h := c7_tick_plants.1 ⟨1, 1, fun _ _ => Tile.plant 3 10 7⟩ 0 0 3 10 7
    (by decide) (by decide) rfl (by decide)
  simpa using h

/-- C8: for every in-bounds position, `consume_food` returns
`min(available, requested)`; on a plant it removes that amount and sets
the regrowth timer to 10 exactly when the remaining food is 0; on a food
tile it removes that amount and collapses the tile to `Empty` exactly when
the remaining amount is 0; an empty tile is untouched. -/
theorem c8_consume_food (w : World) (x y req : Nat)
    (hx : x < w.width) (hy : y < w.height) :
    (w.consume_food x y req).1 = min (w.get_available_food x y) req ∧
    (∀ cf mf t, w.grid y x = Tile.plant cf mf t →
      (w.consume_food x y req).2.grid y x =
        Tile.plant (cf - min cf req) mf
          (if cf - min cf req = 0 then 10 else t)) ∧
    (∀ a, w.grid y x = Tile.food a →
      (w.consume_food x y req).2.grid y x =
        (if a - min a req = 0 then Tile.empty else Tile.food (a - min a req))) ∧
    (w.grid y x = Tile.empty → (w.consume_food x y req).2 = w) := by
  have ht : w.get_tile x y = some (w.grid y x) := by
    simp [World.get_tile, hx, hy]
  refine ⟨?_, ?_, ?_, ?_⟩
  · rcases hg : w.grid y x with _ | ⟨cf, mf, t⟩ | a <;>
      simp [World.consume_food, World.get_available_food, ht, hg]
  · intro cf mf t hg
    simp [World.consume_food, ht, hg, World.setTile]
  · intro a hg
    simp [World.consume_food, ht, hg, World.setTile]
  · intro hg
    simp [World.consume_food, ht, hg]

theorem c8_consume_food_witness :
    (World.consume_food ⟨1, 1, fun _ _ => Tile.food 5⟩ 0 0 3).1 = 3 := by
  have h := (c8_consume_food ⟨1, 1, fun _ _ => Tile.food 5⟩ 0 0 3
    (by decide) (by decide)).1
  simpa [World.get_available_food, World.get_tile] using h

/-! ## Gene-pool theorems (C9, C5, C6) -/

/-- C9: the `survived * 10` increment in `submit_survival_results` is an
unchecked `u32` multiplication performed before the saturating add: it is
exact precisely when `survived * 10` fits in a `u32`, which holds
precisely when `survived ≤ u32::MAX / 10 = 429496729`; and under that
bound the registry update is the exact saturating add of `survived·10`. -/
theorem c9_survived_increment :
    (∀ s : Nat, survivedTimesTen s = s * 10 ↔ s * 10 ≤ u32Max) ∧
    (∀ s : Nat, s ≤ u32Max / 10 ↔ s * 10 ≤ u32Max) ∧
    (∀ (genomes : List (Nat × GenomeEntry)) (res : SurvivalResult)
      (e : GenomeEntry),
      findAL res.genome_id genomes = some e → 0 < res.survived →
      res.survived ≤ u32Max / 10 →
      findAL res.genome_id (applyResult genomes res) =
        some { e with
          population := min (e.population + res.survived * 10) u32Max }) := by
  refine ⟨?_, ?_, ?_⟩
  · intro s
    unfold survivedTimesTen u32Max
    omega
  · intro s
    unfold u32Max
    omega
  · intro genomes res e hfind hpos hble
    have hswt : survivedTimesTen res.survived = res.survived * 10 := by
      unfold survivedTimesTen u32Max at *
      omega
    unfold applyResult
    rw [hfind]
    simp only [if_pos hpos]
    rw [findAL_updateAL]
    simp [hfind, hswt, satAdd32]

theorem c9_survived_increment_witness :
    findAL 1 (applyResult [(1, (⟨gHalf, 100⟩ : GenomeEntry))]
        ⟨1, 3, 5, 0, 30⟩) =
      some ⟨gHalf, min (100 + 3 * 10) u32Max⟩ :=
  c9_survived_increment.2.2 [(1, ⟨gHalf, 100⟩)] ⟨1, 3, 5, 0, 30⟩ ⟨gHalf, 100⟩
    (by simp [findAL]) (by norm_num) (by norm_num [u32Max])

/-- The per-entry effect of one survival result on a registered entry. -/
def applyEffect (res : SurvivalResult) (e : GenomeEntry) : GenomeEntry :=
  if 0 < res.survived then
    { e with population := satAdd32 e.population (survivedTimesTen res.survived) }
  else
    { e with population := e.population - 20 }

theorem findAL_applyResult_self (genomes : List (Nat × GenomeEntry))
    (res : SurvivalResult) :
    findAL res.genome_id (applyResult genomes res) =
      (findAL res.genome_id genomes).map (applyEffect res) := by
  unfold applyResult
  cases hf : findAL res.genome_id genomes with
  | none => simp [hf]
  | some e =>
    simp only [hf]
    split_ifs with hs <;>
      · rw [findAL_updateAL]
        simp [hf, applyEffect, hs]

theorem findAL_applyResult_ne (genomes : List (Nat × GenomeEntry))
    (res : SurvivalResult) (id : Nat) (h : res.genome_id ≠ id) :
    findAL id (applyResult genomes res) = findAL id genomes := by
  unfold applyResult
  cases hf : findAL res.genome_id genomes with
  | none => rfl
  | some e =>
    split_ifs with hs <;>
      · rw [findAL_updateAL]
        simp [h]

theorem findAL_foldl_applyResult_notmem
    (rs : List SurvivalResult) (id : Nat)
    (h : ∀ r ∈ rs, r.genome_id ≠ id) :
    ∀ genomes, findAL id (rs.foldl applyResult genomes) = findAL id genomes := by
  induction rs with
  | nil => intro genomes; rfl
  | cons hd tl ih =>
    intro genomes
    rw [List.foldl_cons, ih (fun r hr => h r (List.mem_cons_of_mem hd hr)),
      findAL_applyResult_ne _ _ _ (h hd (List.mem_cons_self hd tl))]

theorem findAL_foldl_applyResult_single
    (rs : List SurvivalResult) (res : SurvivalResult) (hmem : res ∈ rs)
    (hnodup : (rs.map SurvivalResult.genome_id).Nodup) :
    ∀ genomes, findAL res.genome_id (rs.foldl applyResult genomes) =
      (findAL res.genome_id genomes).map (applyEffect res) := by
  induction rs with
  | nil => cases hmem
  | cons hd tl ih =>
    intro genomes
    rw [List.map_cons, List.nodup_cons] at hnodup
    rcases List.mem_cons.1 hmem with heq | htl
    · subst heq
      rw [List.foldl_cons]
      have hne : ∀ r ∈ tl, r.genome_id ≠ res.genome_id := by
        intro r hr hcontra
        exact hnodup.1 (hcontra ▸ List.mem_map_of_mem SurvivalResult.genome_id hr)
      rw [findAL_foldl_applyResult_notmem tl _ hne, findAL_applyResult_self]
    · have hne : hd.genome_id ≠ res.genome_id := by
        intro hcontra
        exact hnodup.1 (hcontra ▸ List.mem_map_of_mem SurvivalResult.genome_id htl)
      rw [List.foldl_cons, ih htl hnodup.2,
        findAL_applyResult_ne _ _ _ hne]

theorem findAL_foldl_insertAL_notmem {pop : Nat}
    (ps : List (Nat × Genome)) (id : Nat) (h : ∀ p ∈ ps, p.1 ≠ id) :
    ∀ genomes : List (Nat × GenomeEntry), findAL id
      (ps.foldl (fun gs p => insertAL p.1 (⟨p.2, pop⟩ : GenomeEntry) gs) genomes) =
        findAL id genomes := by
  induction ps with
  | nil => intro genomes; rfl
  | cons hd tl ih =>
    intro genomes
    rw [List.foldl_cons, ih (fun p hp => h p (List.mem_cons_of_mem hd hp)),
      findAL_insertAL]
    simp [h hd (List.mem_cons_self hd tl)]

theorem findAL_clampPops (genomes : List (Nat × GenomeEntry)) (id : Nat) :
    findAL id (clampPops genomes) = (findAL id genomes).map
      (fun e => { e with population := min e.population 10000 }) := by
  induction genomes with
  | nil => rfl
  | cons hd tl ih =>
    obtain ⟨k, e⟩ := hd
    by_cases hk : k = id <;> simp [clampPops, findAL, hk] <;>
      simpa [clampPops] using ih

/-- C5 (amended): for a submission in which each lineage id occurs in at
most one entry and every `survived` is small enough that `survived * 10`
does not overflow `u32`, `submit_survival_results` leaves each mentioned
registered lineage at `min(old + survived·10, 10000)` when `survived > 0`
and at `min(old − 20, 10000)` (`u32` saturating subtraction) when
`survived = 0`; entries with unknown lineage ids change nothing; lineages
not mentioned keep their population up to the end-of-call 10000 clamp; and
after the call every population lies in `[0, 10000]`.  (The 10000 cap is a
single clamp pass at the end of the call, not per-entry saturation: see
the counterexample.) -/
theorem c5_submission_updates (inner : GenePoolInner) (cid : Nat)
    (rs : List SurvivalResult) (steps : Nat) (best : List (Nat × Genome))
    (hnodup : (rs.map SurvivalResult.genome_id).Nodup)
    (hbound : ∀ r ∈ rs, r.survived ≤ u32Max / 10)
    (hbest : ∀ p ∈ best, ∀ r ∈ rs, p.1 ≠ r.genome_id) :
    (∀ r ∈ rs, ∀ e, findAL r.genome_id inner.genomes = some e →
      findAL r.genome_id
          (submit_survival_results inner cid rs steps best).genomes =
        some { e with population :=
          (if 0 < r.survived then min (e.population + r.survived * 10) 10000
            else min (e.population - 20) 10000) }) ∧
    (∀ r ∈ rs, findAL r.genome_id inner.genomes = none →
      findAL r.genome_id
        (submit_survival_results inner cid rs steps best).genomes = none) ∧
    (∀ id, (∀ r ∈ rs, r.genome_id ≠ id) → (∀ p ∈ best, p.1 ≠ id) →
      findAL id (submit_survival_results inner cid rs steps best).genomes =
        (findAL id inner.genomes).map
          (fun e => { e with population := min e.population 10000 })) ∧
    (∀ id e,
      findAL id (submit_survival_results inner cid rs steps best).genomes =
        some e → e.population ≤ 10000) := by
  refine ⟨?_, ?_, ?_, ?_⟩
  · intro r hr e hfind
    have hswt : survivedTimesTen r.survived = r.survived * 10 := by
      have := hbound r hr
      unfold survivedTimesTen u32Max at *
      omega
    simp only [submit_survival_results]
    rw [findAL_clampPops,
      findAL_foldl_insertAL_notmem best _ (fun p hp => hbest p hp r hr),
      findAL_foldl_applyResult_single rs r hr hnodup, hfind]
    simp only [Option.map_some', applyEffect, satAdd32, hswt,
      Option.some.injEq]
    split_ifs with hs
    · simp only [GenomeEntry.mk.injEq, true_and]
      unfold u32Max
      omega
    · simp
  · intro r hr hfind
    simp only [submit_survival_results]
    rw [findAL_clampPops,
      findAL_foldl_insertAL_notmem best _ (fun p hp => hbest p hp r hr),
      findAL_foldl_applyResult_single rs r hr hnodup, hfind]
    rfl
  · intro id h1 h2
    simp only [submit_survival_results]
    rw [findAL_clampPops, findAL_foldl_insertAL_notmem best _ h2,
      findAL_foldl_applyResult_notmem rs _ h1]
  · intro id e h
    simp only [submit_survival_results] at h
    rw [findAL_clampPops] at h
    rcases Option.map_eq_some'.1 h with ⟨e', _, he⟩
    rw [← he]
    exact min_le_right _ _

theorem c5_submission_updates_witness :
    (findAL 1 (submit_survival_results ⟨[(1, ⟨gHalf, 100⟩)], [], 0, 0⟩ 7
        [⟨1, 3, 5, 0, 30⟩] 3000 []).genomes).map GenomeEntry.population =
      some (min (100 + 3 * 10) 10000) := by
  have h := (c5_submission_updates ⟨[(1, ⟨gHalf, 100⟩)], [], 0, 0⟩ 7
    [⟨1, 3, 5, 0, 30⟩] 3000 [] (by simp) (by
      intro r hr
      simp only [List.mem_singleton] at hr
      subst hr
      norm_num [u32Max]) (by simp)).1 ⟨1, 3, 5, 0, 30⟩ (by simp) ⟨gHalf, 100⟩
    (by simp [findAL])
  rw [h]
  simp

/-- C5 (counterexample): with registered lineage 1 at population 100 and
the submission `[{survived = 2000}, {survived = 0}]` both targeting
lineage 1, per-entry saturation at 10000 would end at
`10000 − 20 = 9980`, but the code saturates per entry at `u32::MAX` and
clamps to 10000 only at the end of the call, ending at 10000. -/
theorem c5_counterexample :
    (findAL 1 (submit_survival_results
        ⟨[(1, ⟨gHalf, 100⟩)], [], 0, 0⟩ 7
        [⟨1, 2000, 0, 0, 0⟩, ⟨1, 0, 0, 0, 0⟩] 3000 []).genomes).map
      GenomeEntry.population = some 10000 ∧ (10000 : Nat) ≠ 9980 := by
  constructor
  · decide
  · decide

theorem padBase_length (n : Nat) :
    ∀ (base : List Genome) (r : Rng),
      ((padBase n base r).1).length =
        max base.length (min (base.length + n) 10) := by
  induction n with
  | zero =>
    intro base r
    simp only [padBase]
    omega
  | succ n ih =>
    intro base r
    by_cases h : base.length < 10
    · rw [show padBase (n + 1) base r =
          padBase n (base ++ [(Genome.random r).1]) (Genome.random r).2 from by
        simp [padBase, h]]
      rw [ih]
      simp only [List.length_append, List.length_cons, List.length_nil]
      omega
    · rw [show padBase (n + 1) base r = (base, r) from by simp [padBase, h]]
      simp only []
      omega

theorem mintSeeds_map_fst :
    ∀ (gs : List Genome) (ids : List Nat) (r : Rng),
      ((mintSeeds gs ids r).1).map Prod.fst = ids.take gs.length := by
  intro gs
  induction gs with
  | nil => intro ids r; simp [mintSeeds]
  | cons g gs ih =>
    intro ids r
    cases ids with
    | nil => simp [mintSeeds]
    | cons id ids =>
      simp only [mintSeeds, List.map_cons, List.length_cons,
        List.take_succ_cons, List.cons.injEq, true_and]
      exact ih ids _

theorem findAL_foldl_insertAL_mem {pop : Nat} :
    ∀ (ps : List (Nat × Genome)) (id : Nat), (ps.map Prod.fst).Nodup →
      id ∈ ps.map Prod.fst →
      ∀ genomes : List (Nat × GenomeEntry), ∃ g : Genome,
        findAL id (ps.foldl
          (fun gs p => insertAL p.1 (⟨p.2, pop⟩ : GenomeEntry) gs) genomes) =
          some ⟨g, pop⟩ := by
  intro ps
  induction ps with
  | nil => intro id _ hmem; cases hmem
  | cons hd tl ih =>
    intro id hnodup hmem genomes
    rw [List.map_cons, List.nodup_cons] at hnodup
    rw [List.map_cons, List.mem_cons] at hmem
    rcases hmem with heq | htl
    · subst heq
      refine ⟨hd.2, ?_⟩
      rw [List.foldl_cons,
        findAL_foldl_insertAL_notmem tl _ (fun p hp h => hnodup.1 (by
          rw [← h]
          exact List.mem_map_of_mem Prod.fst hp)),
        findAL_insertAL]
      simp
    · exact ih id hnodup.2 htl _

/-- C6: `get_seed_genomes_spatial` returns exactly 10 `(lineage id,
genome)` pairs whose ids are exactly the 10 fresh ids drawn (hence
pairwise distinct and new to the registry); immediately after the call
every returned id is registered with population 0, every id outside the
fresh ones is untouched, and in particular every pre-existing lineage
entry — population included — is unchanged. -/
theorem c6_seed_minting (inner : GenePoolInner) (freshIds : List Nat)
    (extinctChoice : List GenomeEntry) (r : Rng)
    (hlen : freshIds.length = 10) (hnodup : freshIds.Nodup)
    (hfresh : ∀ id ∈ freshIds, findAL id inner.genomes = none) :
    ((get_seed_genomes_spatial inner freshIds extinctChoice r).1).length = 10 ∧
    ((get_seed_genomes_spatial inner freshIds extinctChoice r).1).map
      Prod.fst = freshIds ∧
    (∀ id ∈ freshIds, ∃ g : Genome,
      findAL id
        ((get_seed_genomes_spatial inner freshIds extinctChoice r).2).genomes =
        some ⟨g, 0⟩) ∧
    (∀ id, id ∉ freshIds →
      findAL id
        ((get_seed_genomes_spatial inner freshIds extinctChoice r).2).genomes =
        findAL id inner.genomes) ∧
    (∀ id e, findAL id inner.genomes = some e →
      findAL id
        ((get_seed_genomes_spatial inner freshIds extinctChoice r).2).genomes =
        some e) := by
  rcases hpad : padBase 10 (seedBase inner extinctChoice) r with ⟨base2, r1⟩
  rcases hmint : mintSeeds (base2.take 10) freshIds r1 with ⟨out, r2⟩
  have hb1 : (seedBase inner extinctChoice).length ≤ 10 := by
    simp [seedBase]
    omega
  have hb2 : base2.length = 10 := by
    have := padBase_length 10 (seedBase inner extinctChoice) r
    rw [hpad] at this
    simp at this
    omega
  have htake : (base2.take 10).length = 10 := by
    simp [hb2]
  have hout : out.map Prod.fst = freshIds := by
    have := mintSeeds_map_fst (base2.take 10) freshIds r1
    rw [hmint, htake, ← hlen, List.take_length] at this
    exact this
  have hproj1 : (get_seed_genomes_spatial inner freshIds extinctChoice r).1 =
      out := by
    simp [get_seed_genomes_spatial, hpad, hmint]
  have hproj2 :
      ((get_seed_genomes_spatial inner freshIds extinctChoice r).2).genomes =
        out.foldl (fun gs p => insertAL p.1 (⟨p.2, 0⟩ : GenomeEntry) gs)
          inner.genomes := by
    simp [get_seed_genomes_spatial, hpad, hmint]
  refine ⟨?_, ?_, ?_, ?_, ?_⟩
  · rw [hproj1, ← List.length_map out Prod.fst, hout, hlen]
  · rw [hproj1, hout]
  · intro id hid
    rw [hproj2]
    exact findAL_foldl_insertAL_mem out id (hout ▸ hnodup) (hout ▸ hid)
      inner.genomes
  · intro id hid
    rw [hproj2]
    refine findAL_foldl_insertAL_notmem out id ?_ inner.genomes
    intro p hp hcontra
    exact hid (hcontra ▸ hout ▸ List.mem_map_of_mem Prod.fst hp)
  · intro id e he
    have hid : id ∉ freshIds := by
      intro hmem
      rw [hfresh id hmem] at he
      cases he
    rw [hproj2, findAL_foldl_insertAL_notmem out id (fun p hp hcontra =>
      hid (hcontra ▸ hout ▸ List.mem_map_of_mem Prod.fst hp)) inner.genomes]
    exact he

theorem c6_seed_minting_witness :
    ((get_seed_genomes_spatial ⟨[(100, ⟨gHalf, 100⟩)], [], 0, 0⟩
        [0, 1, 2, 3, 4, 5, 6, 7, 8, 9] [] rngC).1).length = 10 :=
  (c6_seed_minting ⟨[(100, ⟨gHalf, 100⟩)], [], 0, 0⟩
    [0, 1, 2, 3, 4, 5, 6, 7, 8, 9] [] rngC rfl (by decide)
    (by decide)).1

/-! ## Island theorems (C2, C3, C4) -/

theorem runSimAux_of_stop (tickF : Island → Rng → Island × Rng)
    (fuel : Nat) (isl : Island) (r : Rng) (h : isl.should_stop) :
    runSimAux tickF fuel isl r = (isl, r) := by
  cases fuel <;> simp [runSimAux, h]

theorem runSimAux_final (tickF : Island → Rng → Island × Rng)
    (hstep : ∀ s rr, ((tickF s rr).1).config = s.config ∧
      ((tickF s rr).1).step = s.step + 1) :
    ∀ (fuel : Nat) (isl : Island) (r : Rng),
      isl.config.max_steps ≤ isl.step + fuel →
      (runSimAux tickF fuel isl r).1.should_stop ∨
        (runSimAux tickF fuel isl r).1.config.max_steps ≤
          (runSimAux tickF fuel isl r).1.step := by
  intro fuel
  induction fuel with
  | zero =>
    intro isl r hfuel
    right
    simpa [runSimAux] using hfuel
  | succ n ih =>
    intro isl r hfuel
    by_cases hc : isl.step < isl.config.max_steps ∧ ¬ isl.should_stop
    · rcases htick : tickF isl r with ⟨isl', r'⟩
      have hcfg := (hstep isl r).1
      have hstp := (hstep isl r).2
      rw [htick] at hcfg hstp
      simp only [runSimAux, hc, if_pos, htick]
      exact ih isl' r' (by rw [hcfg, hstp]; omega)
    · simp only [runSimAux, hc, if_false]
      rcases Decidable.not_and_iff_or_not.1 hc with hge | hstop
      · right
        omega
      · left
        exact Decidable.not_not.1 hstop

/-- C2 (amended): the stop condition (at most one distinct lineage id
among the living creatures) is checked at the top of the driver loop, so
(i) for any step-incrementing tick body, the simulation ends only in a
state that is a monoculture or has exhausted `max_steps` — in particular
it ends as soon as a tick leaves at most one lineage, even below
`max_steps` — and (ii) with two seeds sharing one lineage id, the loop
exits before the first tick: the run returns the initial island, the step
counter is 0 (not 1), and exactly one stats entry is reported. -/
theorem c2_monoculture_stop :
    (∀ (tickF : Island → Rng → Island × Rng),
      (∀ s rr, ((tickF s rr).1).config = s.config ∧
        ((tickF s rr).1).step = s.step + 1) →
      ∀ (isl : Island) (r : Rng),
        (Island.run_simulation tickF isl r).1.should_stop ∨
          (Island.run_simulation tickF isl r).1.config.max_steps ≤
            (Island.run_simulation tickF isl r).1.step) ∧
    (∀ (tickF : Island → Rng → Island × Rng) (cfg : IslandConfig)
      (id : Nat) (g1 g2 : Genome) (r : Rng),
      Island.run_simulation tickF ((Island.new cfg [(id, g1), (id, g2)] r).1)
          ((Island.new cfg [(id, g1), (id, g2)] r).2) =
        ((Island.new cfg [(id, g1), (id, g2)] r).1,
          (Island.new cfg [(id, g1), (id, g2)] r).2) ∧
      ((Island.new cfg [(id, g1), (id, g2)] r).1).step = 0 ∧
      (((Island.new cfg [(id, g1), (id, g2)] r).1).collect_survival_stats).length
        = 1) := by
  constructor
  · intro tickF hstep isl r
    exact runSimAux_final tickF hstep isl.config.max_steps isl r (by omega)
  · intro tickF cfg id g1 g2 r
    rcases hw : worldWithResources (World.new cfg.world_width cfg.world_height)
      cfg.plant_density cfg.food_density r with ⟨w1, r1⟩
    have hseed : seedCreatures cfg [(id, g1), (id, g2)] r1 =
        ([Creature.new g1 id (r1.ns r1.ni % cfg.world_width)
            (r1.ns (r1.ni + 1) % cfg.world_height),
          Creature.new g2 id (r1.ns (r1.ni + 2) % cfg.world_width)
            (r1.ns (r1.ni + 3) % cfg.world_height)],
         [(id, ⟨1, 0⟩)],
         { r1 with ni := r1.ni + 4 }) := by
      simp [seedCreatures, Rng.natLt, insertAL]
    have hnew : (Island.new cfg [(id, g1), (id, g2)] r).1 =
        ⟨cfg, w1,
          [Creature.new g1 id (r1.ns r1.ni % cfg.world_width)
            (r1.ns (r1.ni + 1) % cfg.world_height),
           Creature.new g2 id (r1.ns (r1.ni + 2) % cfg.world_width)
            (r1.ns (r1.ni + 3) % cfg.world_height)],
          0, [(id, ⟨1, 0⟩)]⟩ := by
      simp [Island.new, hw, hseed]
    have hstop : ((Island.new cfg [(id, g1), (id, g2)] r).1).should_stop := by
      rw [hnew]
      simp [Island.should_stop, Creature.new, List.dedup_cons_of_mem]
    refine ⟨?_, ?_, ?_⟩
    · exact runSimAux_of_stop tickF _ _ _ hstop
    · rw [hnew]
    · rw [hnew]
      simp [Island.collect_survival_stats]

theorem c2_monoculture_stop_witness :
    (Island.run_simulation incTick
        (Island.new ⟨3, 3, 5, 0, 0, 0, 60⟩ [(0, gHalf), (0, gHalf)] rngC).1
        rngC).1.should_stop ∨
      (Island.run_simulation incTick
          (Island.new ⟨3, 3, 5, 0, 0, 0, 60⟩ [(0, gHalf), (0, gHalf)] rngC).1
          rngC).1.config.max_steps ≤
        (Island.run_simulation incTick
            (Island.new ⟨3, 3, 5, 0, 0, 0, 60⟩ [(0, gHalf), (0, gHalf)] rngC).1
            rngC).1.step :=
  c2_monoculture_stop.1 incTick (fun _ _ => ⟨rfl, rfl⟩)
    (Island.new ⟨3, 3, 5, 0, 0, 0, 60⟩ [(0, gHalf), (0, gHalf)] rngC).1 rngC

/-- C2 (counterexample): two seeds sharing lineage id 0; the engine stops
with the step counter at 0 — not 1 — because `should_stop` is evaluated
before the first tick ever runs; one stats entry is still returned. -/
theorem c2_counterexample :
    (Island.run_simulation incTick
        (Island.new ⟨3, 3, 5, 0, 0, 0, 60⟩ [(0, gHalf), (0, gHalf)] rngC).1
        rngC).1.step = 0 ∧
    ¬ ((Island.run_simulation incTick
        (Island.new ⟨3, 3, 5, 0, 0, 0, 60⟩ [(0, gHalf), (0, gHalf)] rngC).1
        rngC).1.step = 1) ∧
    ((Island.run_simulation incTick
        (Island.new ⟨3, 3, 5, 0, 0, 0, 60⟩ [(0, gHalf), (0, gHalf)] rngC).1
        rngC).1.collect_survival_stats).length = 1 := by
  refine ⟨?_, ?_, ?_⟩ <;> decide

/-- Exact behaviour of `Island::reproduce` on a two-creature island with
the shuffled order `[0, 1]`, below the population cap: a child is produced
precisely when both partners pass the configured threshold check *and*
`Creature::reproduce`'s hard-coded `60.0` check. -/
theorem pair_reproduce_spec (cfg : IslandConfig) (w : World)
    (c1 c2 : Creature) (stats : List (Nat × GenomeLineage)) (step : Nat)
    (r : Rng) (hroom : 2 < cfg.population_limit) :
    (((cfg.reproduction_threshold ≤ c1.energy ∧
        cfg.reproduction_threshold ≤ c2.energy) ∧
      (60 ≤ c1.energy ∧ 60 ≤ c2.energy)) →
      Island.reproduce ⟨cfg, w, [c1, c2], step, stats⟩ [0, 1] r =
        some (⟨cfg, w,
          [{ c1 with energy := c1.energy - 20 },
           { c2 with energy := c2.energy - 20 },
           Creature.new
             (((c1.genome.crossover c2.genome r).1).mutate cfg.mutation_rate
               ((c1.genome.crossover c2.genome r).2)).1
             c1.genome_id ((c1.x + c2.x) / 2) ((c1.y + c2.y) / 2)],
          step, incSpawn stats c1.genome_id⟩,
          (((c1.genome.crossover c2.genome r).1).mutate cfg.mutation_rate
            ((c1.genome.crossover c2.genome r).2)).2)) ∧
    (¬ (((cfg.reproduction_threshold ≤ c1.energy ∧
          cfg.reproduction_threshold ≤ c2.energy) ∧
        (60 ≤ c1.energy ∧ 60 ≤ c2.energy))) →
      Island.reproduce ⟨cfg, w, [c1, c2], step, stats⟩ [0, 1] r =
        some (⟨cfg, w, [c1, c2], step, stats⟩, r)) := by
  have hlen : ¬ (([c1, c2] : List Creature).length < 2) := by simp
  constructor
  · intro hcond
    obtain ⟨⟨ht1, ht2⟩, h61, h62⟩ := hcond
    have hrep : Creature.reproduce c1 c2 cfg.mutation_rate r =
        (some (Creature.new
            (((c1.genome.crossover c2.genome r).1).mutate cfg.mutation_rate
              ((c1.genome.crossover c2.genome r).2)).1
            c1.genome_id ((c1.x + c2.x) / 2) ((c1.y + c2.y) / 2)),
          { c1 with energy := c1.energy - 20 },
          { c2 with energy := c2.energy - 20 },
          (((c1.genome.crossover c2.genome r).1).mutate cfg.mutation_rate
            ((c1.genome.crossover c2.genome r).2)).2) := by
      rw [Creature.reproduce, if_pos ⟨h61, h62⟩]
    rw [Island.reproduce, if_neg hlen]
    have hpair : pairUp [0, 1] = [(0, 1)] := by simp [pairUp]
    rw [hpair]
    rw [repLoop]
    simp only [List.get?_cons_zero, List.get?_cons_succ]
    rw [if_pos (show c1.can_reproduce cfg.reproduction_threshold ∧
        c2.can_reproduce cfg.reproduction_threshold from ⟨ht1, ht2⟩)]
    have h01 : ¬ ((0 : Nat) = 1) := by omega
    rw [if_neg h01, hrep]
    simp only [List.set_cons_zero, List.set_cons_succ]
    have hnolimit : ¬ (cfg.population_limit ≤
        (([{ c1 with energy := c1.energy - 20 },
            { c2 with energy := c2.energy - 20 }] : List Creature).length +
          ([] : List Creature).length)) := by
      simp
      omega
    rw [if_neg hnolimit]
    rw [repLoop]
    simp [Creature.new]
  · intro hcond
    rw [Island.reproduce, if_neg hlen]
    have hpair : pairUp [0, 1] = [(0, 1)] := by simp [pairUp]
    rw [hpair, repLoop]
    simp only [List.get?_cons_zero, List.get?_cons_succ]
    by_cases hthr : c1.can_reproduce cfg.reproduction_threshold ∧
        c2.can_reproduce cfg.reproduction_threshold
    · rw [if_pos hthr]
      have h60 : ¬ (c1.can_reproduce 60 ∧ c2.can_reproduce 60) := by
        intro hc
        exact hcond ⟨hthr, hc⟩
      have hrep : Creature.reproduce c1 c2 cfg.mutation_rate r =
          (none, c1, c2, r) := by
        rw [Creature.reproduce, if_neg h60]
      have h01 : ¬ ((0 : Nat) = 1) := by omega
      rw [if_neg h01, hrep]
      simp only [List.set_cons_zero, List.set_cons_succ]
      rw [repLoop]
      simp
    · rw [if_neg hthr, repLoop]
      simp

/-- C3 (amended): in the reproduction phase a shuffled pair produces a
child exactly when both partners pass the configured threshold check in
`Island::reproduce` *and* the hard-coded `60.0` check inside
`Creature::reproduce` — i.e. when both energies are at least
`max(reproduction_threshold, 60)`.  On success each partner loses exactly
20 energy, the child starts with energy 100 and health 100, carries the
first partner's lineage id, and sits at the integer midpoint of the
parents; its genome is the mutated crossover of the parents' genomes. -/
theorem c3_pair_reproduction (cfg : IslandConfig) (w : World)
    (c1 c2 : Creature) (stats : List (Nat × GenomeLineage)) (step : Nat)
    (r : Rng) (hroom : 2 < cfg.population_limit) :
    (((cfg.reproduction_threshold ≤ c1.energy ∧
        cfg.reproduction_threshold ≤ c2.energy) ∧
      (60 ≤ c1.energy ∧ 60 ≤ c2.energy)) →
      Island.reproduce ⟨cfg, w, [c1, c2], step, stats⟩ [0, 1] r =
        some (⟨cfg, w,
          [{ c1 with energy := c1.energy - 20 },
           { c2 with energy := c2.energy - 20 },
           Creature.new
             (((c1.genome.crossover c2.genome r).1).mutate cfg.mutation_rate
               ((c1.genome.crossover c2.genome r).2)).1
             c1.genome_id ((c1.x + c2.x) / 2) ((c1.y + c2.y) / 2)],
          step, incSpawn stats c1.genome_id⟩,
          (((c1.genome.crossover c2.genome r).1).mutate cfg.mutation_rate
            ((c1.genome.crossover c2.genome r).2)).2)) ∧
    (¬ (((cfg.reproduction_threshold ≤ c1.energy ∧
          cfg.reproduction_threshold ≤ c2.energy) ∧
        (60 ≤ c1.energy ∧ 60 ≤ c2.energy))) →
      Island.reproduce ⟨cfg, w, [c1, c2], step, stats⟩ [0, 1] r =
        some (⟨cfg, w, [c1, c2], step, stats⟩, r)) :=
  pair_reproduce_spec cfg w c1 c2 stats step r hroom

theorem c3_pair_reproduction_witness :
    ∃ p, Island.reproduce ⟨⟨3, 3, 5, 0, 0, 0, 60⟩, World.new 3 3,
        [Creature.new gHalf 0 0 0, Creature.new gHalf 1 2 2], 0, []⟩ [0, 1]
      rngC = some p :=
  ⟨_, (c3_pair_reproduction ⟨3, 3, 5, 0, 0, 0, 60⟩ (World.new 3 3)
    (Creature.new gHalf 0 0 0) (Creature.new gHalf 1 2 2) [] 0 rngC
    (by norm_num [IslandConfig.population_limit])).1
    (by norm_num [Creature.new])⟩

/-- C3 (counterexample): with `reproduction_threshold = 30` both partners
at energy 40 satisfy the configured threshold, yet no child is produced —
the hard-coded `60.0` check inside `Creature::reproduce` rejects the pair,
so the claimed condition "exactly when both partners have energy ≥ the
configured reproduction_threshold" is false. -/
theorem c3_counterexample :
    ((30 : ℚ) ≤ 40 ∧ (30 : ℚ) ≤ 40) ∧
    (Island.reproduce ⟨⟨3, 3, 5, 0, 0, 0, 30⟩, World.new 3 3,
        [⟨gHalf, 0, 40, 100, 0, 0, 0⟩, ⟨gHalf, 1, 40, 100, 2, 2, 0⟩], 0, []⟩
      [0, 1] rngC).map (fun p => p.1.creatures.length) = some 2 := by
  refine ⟨⟨by norm_num, by norm_num⟩, ?_⟩
  rw [(pair_reproduce_spec ⟨3, 3, 5, 0, 0, 0, 30⟩ (World.new 3 3)
    ⟨gHalf, 0, 40, 100, 0, 0, 0⟩ ⟨gHalf, 1, 40, 100, 2, 2, 0⟩ [] 0 rngC
    (by norm_num [IslandConfig.population_limit])).2 (by norm_num)]
  simp

theorem fwAux_cons (c : Creature) (rest : List Creature) (i : Nat)
    (acc : Option (Nat × ℚ)) :
    fwAux (c :: rest) i acc = fwAux rest (i + 1)
      (if c.energy ≤ 0 then
        (match acc with
          | none => some (i, c.health)
          | some (wi, lh) =>
            if c.health < lh then some (i, c.health) else some (wi, lh))
        else acc) := rfl

theorem fwAux_eq_none :
    ∀ (cs : List Creature) (i : Nat) (acc : Option (Nat × ℚ)),
      fwAux cs i acc = none ↔ acc = none ∧ ∀ c ∈ cs, ¬ c.energy ≤ 0 := by
  intro cs
  induction cs with
  | nil => intro i acc; simp [fwAux]
  | cons c rest ih =>
    intro i acc
    rw [fwAux_cons]
    by_cases he : c.energy ≤ 0
    · rw [if_pos he, ih]
      cases acc with
      | none => simp [he]
      | some p =>
        rcases p with ⟨wi, lh⟩
        by_cases hlt : c.health < lh <;> simp [he, hlt]
    · rw [if_neg he, ih]
      simp [he]
      exact fun _ _ => not_le.1 he

theorem fwAux_spec :
    ∀ (cs : List Creature) (i : Nat) (acc : Option (Nat × ℚ))
      (j : Nat) (hh : ℚ),
      fwAux cs i acc = some (j, hh) →
      (acc = some (j, hh) ∨
        ∃ k c, cs.get? k = some c ∧ j = i + k ∧ hh = c.health ∧
          c.energy ≤ 0) ∧
      (∀ c ∈ cs, c.energy ≤ 0 → hh ≤ c.health) ∧
      (∀ wi lh, acc = some (wi, lh) → hh ≤ lh) := by
  intro cs
  induction cs with
  | nil =>
    intro i acc j hh h
    rw [show fwAux [] i acc = acc from rfl] at h
    refine ⟨Or.inl h, by simp, ?_⟩
    intro wi lh hacc
    rw [h] at hacc
    simp at hacc
    rw [hacc.2]
  | cons c rest ih =>
    intro i acc j hh h
    rw [fwAux_cons] at h
    by_cases he : c.energy ≤ 0
    · rw [if_pos he] at h
      cases acc with
      | none =>
        simp only [] at h
        obtain ⟨hat, hmin, hbnd⟩ := ih (i + 1) (some (i, c.health)) j hh h
        refine ⟨?_, ?_, by simp⟩
        · rcases hat with hacc | ⟨k, c', hget, hjk, hhh, he'⟩
          · simp at hacc
            exact Or.inr ⟨0, c, by simp, by omega, hacc.2.symm, he⟩
          · exact Or.inr ⟨k + 1, c', by simpa using hget, by omega, hhh, he'⟩
        · intro c' hc' he'
          rcases List.mem_cons.1 hc' with rfl | hrest
          · exact hbnd i c'.health rfl
          · exact hmin c' hrest he'
      | some p =>
        rcases p with ⟨wi, lh⟩
        simp only [] at h
        by_cases hlt : c.health < lh
        · rw [if_pos hlt] at h
          obtain ⟨hat, hmin, hbnd⟩ := ih (i + 1) (some (i, c.health)) j hh h
          have hhc : hh ≤ c.health := hbnd i c.health rfl
          refine ⟨?_, ?_, ?_⟩
          · rcases hat with hacc | ⟨k, c', hget, hjk, hhh, he'⟩
            · simp at hacc
              exact Or.inr ⟨0, c, by simp, by omega, hacc.2.symm, he⟩
            · exact Or.inr ⟨k + 1, c', by simpa using hget, by omega, hhh, he'⟩
          · intro c' hc' he'
            rcases List.mem_cons.1 hc' with rfl | hrest
            · exact hhc
            · exact hmin c' hrest he'
          · intro wi' lh' hacc
            simp at hacc
            rw [← hacc.2]
            exact hhc.trans hlt.le
        · rw [if_neg hlt] at h
          obtain ⟨hat, hmin, hbnd⟩ := ih (i + 1) (some (wi, lh)) j hh h
          have hhl : hh ≤ lh := hbnd wi lh rfl
          refine ⟨?_, ?_, ?_⟩
          · rcases hat with hacc | ⟨k, c', hget, hjk, hhh, he'⟩
            · exact Or.inl (by simpa using hacc)
            · exact Or.inr ⟨k + 1, c', by simpa using hget, by omega, hhh, he'⟩
          · intro c' hc' he'
            rcases List.mem_cons.1 hc' with rfl | hrest
            · exact hhl.trans (le_of_not_lt hlt)
            · exact hmin c' hrest he'
          · intro wi' lh' hacc
            simp at hacc
            rw [← hacc.2]
            exact hhl
    · rw [if_neg he] at h
      obtain ⟨hat, hmin, hbnd⟩ := ih (i + 1) acc j hh h
      refine ⟨?_, ?_, hbnd⟩
      · rcases hat with hacc | ⟨k, c', hget, hjk, hhh, he'⟩
        · exact Or.inl hacc
        · exact Or.inr ⟨k + 1, c', by simpa using hget, by omega, hhh, he'⟩
      · intro c' hc' he'
        rcases List.mem_cons.1 hc' with rfl | hrest
        · exact absurd he' he
        · exact hmin c' hrest he'

theorem find_weakest_spec (cs : List Creature) (j : Nat)
    (h : find_weakest_creature cs = some j) :
    ∃ c, cs.get? j = some c ∧ c.energy ≤ 0 ∧
      ∀ c' ∈ cs, c'.energy ≤ 0 → c.health ≤ c'.health := by
  unfold find_weakest_creature at h
  rcases hfw : fwAux cs 0 none with _ | ⟨j', hh⟩
  · rw [hfw] at h
    cases h
  · rw [hfw] at h
    simp at h
    obtain ⟨hat, hmin, _⟩ := fwAux_spec cs 0 none j' hh hfw
    rcases hat with hacc | ⟨k, c, hget, hjk, hhh, he⟩
    · cases hacc
    · subst h
      refine ⟨c, ?_, he, ?_⟩
      · rw [hjk]
        simpa using hget
      · intro c' hc' he'
        rw [← hhh]
        exact hmin c' hc' he'

theorem find_weakest_none (cs : List Creature) :
    find_weakest_creature cs = none ↔ ∀ c ∈ cs, ¬ c.energy ≤ 0 := by
  unfold find_weakest_creature
  rw [Option.map_eq_none', fwAux_eq_none]
  simp

theorem repLoop_count (cfg : IslandConfig) (limit : Nat) :
    ∀ (pairs : List (Nat × Nat)) (cs newCs : List Creature)
      (stats : List (Nat × GenomeLineage)) (r : Rng)
      (out : List Creature × List Creature × List (Nat × GenomeLineage) × Rng),
      repLoop cfg limit pairs cs newCs stats r = some out →
      out.1.length + out.2.1.length ≤ max (cs.length + newCs.length) limit := by
  intro pairs
  induction pairs with
  | nil =>
    intro cs newCs stats r out h
    rw [repLoop] at h
    injection h with h
    subst h
    exact le_max_left _ _
  | cons pr rest ih =>
    intro cs newCs stats r out h
    obtain ⟨i1, i2⟩ := pr
    rw [repLoop] at h
    cases hg1 : cs.get? i1 with
    | none =>
      rw [hg1] at h
      cases hg2 : cs.get? i2 with
      | none => rw [hg2] at h; simp at h
      | some c2 => rw [hg2] at h; simp at h
    | some c1 =>
      rw [hg1] at h
      cases hg2 : cs.get? i2 with
      | none => rw [hg2] at h; simp at h
      | some c2 =>
        rw [hg2] at h
        simp only [] at h
        by_cases hcan : c1.can_reproduce cfg.reproduction_threshold ∧
            c2.can_reproduce cfg.reproduction_threshold
        · rw [if_pos hcan] at h
          by_cases h12 : i1 = i2
          · rw [if_pos h12] at h
            simp at h
          · rw [if_neg h12] at h
            rcases hrep : Creature.reproduce c1 c2 cfg.mutation_rate r with
              ⟨childOpt, c1', c2', r'⟩
            rw [hrep] at h
            cases childOpt with
            | none =>
              simp only [] at h
              have := ih _ _ _ _ _ h
              simpa [List.length_set] using this
            | some child =>
              simp only [] at h
              by_cases hlim : limit ≤
                  ((cs.set i1 c1').set i2 c2').length + newCs.length
              · rw [if_pos hlim] at h
                cases hfw : find_weakest_creature ((cs.set i1 c1').set i2 c2')
                  with
                | none =>
                  rw [hfw] at h
                  have := ih _ _ _ _ _ h
                  simpa [List.length_set] using this
                | some ridx =>
                  rw [hfw] at h
                  simp only [] at h
                  cases hget : ((cs.set i1 c1').set i2 c2').get? ridx with
                  | none => rw [hget] at h; simp at h
                  | some removed =>
                    rw [hget] at h
                    simp only [] at h
                    obtain ⟨hlt, -⟩ := List.get?_eq_some.1 hget
                    have hb := ih _ _ _ _ _ h
                    rw [List.length_eraseIdx] at hb
                    simp only [List.length_set] at hb hlim hlt
                    rw [if_pos hlt] at hb
                    simp only [List.length_append, List.length_cons,
                      List.length_nil, List.length_set] at hb ⊢
                    omega
              · rw [if_neg hlim] at h
                have hb := ih _ _ _ _ _ h
                simp only [List.length_append, List.length_cons,
                  List.length_nil, List.length_set] at hb hlim ⊢
                omega
        · rw [if_neg hcan] at h
          exact ih _ _ _ _ _ h

/-- C4 (amended): with `cap = floor(w·h/2)`, if the live count is at most
`cap` when the reproduction phase starts, it is still at most `cap` when
the phase ends (so no tick raises the count above `cap`); the code evicts
only when inserting the child would bring the count *strictly above*
`cap` (the count may reach exactly `cap` by a plain insertion); the
evicted creature returned by `find_weakest_creature` always has
`energy ≤ 0` and minimal health among such creatures, and it is `none` —
blocking the birth — exactly when no creature has `energy ≤ 0`. -/
theorem c4_population_cap :
    (∀ (isl : Island) (indices : List Nat) (r : Rng) (isl' : Island)
      (r' : Rng),
      isl.creatures.length ≤ isl.config.population_limit →
      Island.reproduce isl indices r = some (isl', r') →
      isl'.creatures.length ≤ isl.config.population_limit) ∧
    (∀ (cs : List Creature) (i : Nat), find_weakest_creature cs = some i →
      ∃ c, cs.get? i = some c ∧ c.energy ≤ 0 ∧
        ∀ c' ∈ cs, c'.energy ≤ 0 → c.health ≤ c'.health) ∧
    (∀ cs : List Creature,
      find_weakest_creature cs = none ↔ ∀ c ∈ cs, ¬ c.energy ≤ 0) := by
  refine ⟨?_, find_weakest_spec, find_weakest_none⟩
  intro isl indices r isl' r' hle h
  rw [Island.reproduce] at h
  by_cases hlen : isl.creatures.length < 2
  · rw [if_pos hlen] at h
    injection h with h
    injection h with hi hr
    subst hi
    exact hle
  · rw [if_neg hlen] at h
    cases hloop : repLoop isl.config isl.config.population_limit
        (pairUp indices) isl.creatures [] isl.genome_stats r with
    | none => rw [hloop] at h; simp at h
    | some out =>
      have hb := repLoop_count isl.config isl.config.population_limit
        (pairUp indices) isl.creatures [] isl.genome_stats r out hloop
      obtain ⟨cs', newCs', stats', rr'⟩ := out
      rw [hloop] at h
      simp only [] at h
      injection h with h
      injection h with hi hr
      subst hi
      simp only [List.length_append, List.length_nil] at hb ⊢
      omega

theorem c4_population_cap_witness :
    ((⟨⟨3, 3, 5, 0, 0, 0, 60⟩, World.new 3 3, [], 0, []⟩ :
        Island)).creatures.length ≤
      (⟨⟨3, 3, 5, 0, 0, 0, 60⟩, World.new 3 3, [], 0, []⟩ :
        Island).config.population_limit ∧
    (∃ c, ([⟨gHalf, 0, 0, 5, 0, 0, 0⟩] : List Creature).get? 0 = some c ∧
      c.energy ≤ 0 ∧ ∀ c' ∈ [(⟨gHalf, 0, 0, 5, 0, 0, 0⟩ : Creature)],
        c'.energy ≤ 0 → c.health ≤ c'.health) :=
  ⟨c4_population_cap.1 ⟨⟨3, 3, 5, 0, 0, 0, 60⟩, World.new 3 3, [], 0, []⟩
      [] rngC ⟨⟨3, 3, 5, 0, 0, 0, 60⟩, World.new 3 3, [], 0, []⟩ rngC
      (by norm_num [IslandConfig.population_limit]) rfl,
   c4_population_cap.2.1 [⟨gHalf, 0, 0, 5, 0, 0, 0⟩] 0 (by decide)⟩

/-- C4 (counterexample): world 2×3, so `cap = 3`.  Two creatures at full
energy reproduce; inserting the child brings the live count *to* the cap
(2 + 1 = 3 = cap).  The claim demands an eviction or a blocked birth in
this situation — and no creature has `energy ≤ 0`, so the child could not
be born — yet the code performs a plain insertion and ends the phase with
exactly `cap` creatures. -/
theorem c4_counterexample :
    (Island.reproduce ⟨⟨2, 3, 5, 0, 0, 0, 60⟩, World.new 2 3,
        [Creature.new gHalf 0 0 0, Creature.new gHalf 1 1 1], 0, []⟩ [0, 1]
      rngC).map (fun p => p.1.creatures.length) =
      some (IslandConfig.population_limit ⟨2, 3, 5, 0, 0, 0, 60⟩) ∧
    (∀ c ∈ [Creature.new gHalf 0 0 0, Creature.new gHalf 1 1 1],
      ¬ c.energy ≤ 0) := by
  constructor
  · rw [(pair_reproduce_spec ⟨2, 3, 5, 0, 0, 0, 60⟩ (World.new 2 3)
      (Creature.new gHalf 0 0 0) (Creature.new gHalf 1 1 1) [] 0 rngC
      (by norm_num [IslandConfig.population_limit])).1
      (by norm_num [Creature.new])]
    simp [IslandConfig.population_limit]
  · intro c hc
    rcases List.mem_cons.1 hc with rfl | hc
    · norm_num [Creature.new]
    · rcases List.mem_cons.1 hc with rfl | hc
      · norm_num [Creature.new]
      · cases hc
